import Mathlib

/-!
Verification of the InvoicePilot invoice-management application.

The development shallowly embeds the client-side logic of the repository:
the invoice service layers (the Firestore-backed `src/services/invoice.ts`
and the superseded in-memory mock service), the admin and agent page
handlers with their cache updates and filters, the sortable invoice
tables, and the date-reconciliation logic of the smart-extraction form.

Conventions of the embedding:

* JavaScript numbers that hold currency amounts are modelled as exact
  scaled decimals (`JSNumber`, value `mant / 10 ^ scale`): every finite
  binary float is exactly such a decimal, and the amounts in this
  application are decimal literals.
* JavaScript timestamps (`Date.getTime()`) are modelled as `Int`
  milliseconds since the Unix epoch, computed from civil dates with the
  standard days-from-civil algorithm.  Local-timezone effects are
  normalised to UTC: a date-only string parses to UTC midnight, and the
  date-range picker hands the pages midnight `Date` values.
* `String.prototype.localeCompare` is an external, locale-dependent
  routine; functions that call it take a comparison function `lc` as an
  argument.  `strCmp` (plain code-point comparison, which agrees with
  the en-US collation on the digit/dash strings appearing here) is used
  to instantiate `lc` in concrete computations.
* A JavaScript function that throws is embedded as a function into
  `Except StoreErr`; the distinct error messages thrown by the source are
  mapped onto the constructors of `StoreErr` (configuration error,
  missing-id guard, not-found, generic write failure).
* Calls into external black boxes (Firestore's `updateDoc`/`deleteDoc`)
  are parameters of the embedding; where a concrete behaviour is needed
  the documented Firestore semantics is supplied as an explicit model.
-/

namespace InvoicePilot

/-! ## Strings: lowercasing, substring search, code-point comparison -/

/-- Model of `String.prototype.toLowerCase` (per-code-point lowering,
which coincides with the JavaScript behaviour on the ASCII data of this
application). -/
def jsToLower (s : String) : String := String.mk (s.data.map Char.toLower)

/-- Prefix test on character lists. -/
def listPre : List Char → List Char → Bool
  | [], _ => true
  | _ :: _, [] => false
  | a :: as, b :: bs => a == b && listPre as bs

/-- Substring test on character lists: some suffix of the haystack starts
with the needle. -/
def hasSub (n : List Char) : List Char → Bool
  | [] => listPre n []
  | b :: t => listPre n (b :: t) || hasSub n t

/-- Model of `String.prototype.includes`: substring containment. -/
def strHasSub (needle hay : String) : Bool := hasSub needle.data hay.data

/-- Case-insensitive substring match, the comparison the specification's
filter predicates are phrased in: lower both sides, then contain. -/
def ciSub (term s : String) : Bool := strHasSub (jsToLower term) (jsToLower s)

/-- Comparison of two characters by code point. -/
def chCmp (a b : Char) : Int := if a < b then -1 else if b < a then 1 else 0

/-- Code-point comparison of character lists. -/
def strCmpL : List Char → List Char → Int
  | [], [] => 0
  | [], _ :: _ => -1
  | _ :: _, [] => 1
  | a :: as, b :: bs => if a = b then strCmpL as bs else chCmp a b

/-- Concrete string comparison used to instantiate the `localeCompare`
parameter: code-point order, which agrees with the en-US collation on the
digit-and-dash strings this application sorts. -/
def strCmp (a b : String) : Int := strCmpL a.data b.data

/-! ## JavaScript numbers as exact scaled decimals -/

/-- A finite JavaScript number, represented exactly as the decimal
`mant / 10 ^ scale`.  Every finite binary float is such a decimal; the
amounts handled by this application are short decimal literals. -/
structure JSNumber where
  mant : Int
  scale : Nat
deriving DecidableEq, Repr

/-- Numeric order on `JSNumber` values (comparing the represented
rationals by cross multiplication). -/
def numLt (a b : JSNumber) : Prop :=
  a.mant * (10 : Int) ^ b.scale < b.mant * (10 : Int) ^ a.scale

instance : DecidableRel numLt := fun a b =>
  inferInstanceAs (Decidable (a.mant * (10 : Int) ^ b.scale < b.mant * (10 : Int) ^ a.scale))

/-- Sign of `valA - valB` for the JavaScript comparator `valA - valB` on
numbers (the sort only consumes the sign). -/
def numCmp (a b : JSNumber) : Int := if numLt a b then -1 else if numLt b a then 1 else 0

/-- Strip trailing fractional zeros: JavaScript prints the shortest
decimal, so `230.00` renders as `"230"`. -/
def canonDec : Int → Nat → Int × Nat
  | m, 0 => (m, 0)
  | m, k + 1 => if m % 10 = 0 then canonDec (m / 10) k else (m, k + 1)

/-- Left-pad a digit string with zeros to the given width. -/
def padZeros (s : String) (k : Nat) : String :=
  String.mk (List.replicate (k - s.length) '0' ++ s.data)

/-- Model of `Number.prototype.toString` on the finite decimals of this
application: shortest decimal rendering (integer part, then the
fractional digits with trailing zeros removed). -/
def amountToString (a : JSNumber) : String :=
  match canonDec a.mant a.scale with
  | (m, 0) => toString m
  | (m, k) =>
      let abs := m.natAbs
      let ip := abs / 10 ^ k
      let fp := abs % 10 ^ k
      (if m < 0 then "-" else "") ++ toString ip ++ "." ++ padZeros (toString fp) k

/-! ## Calendar arithmetic and the JavaScript / date-fns date parsers -/

/-- Milliseconds per day. -/
def msPerDay : Int := 86400000

/-- Leap year in the proleptic Gregorian calendar. -/
def isLeap (y : Int) : Bool := (y % 4 == 0 && y % 100 != 0) || y % 400 == 0

/-- Number of days in a month. -/
def daysInMonth (y : Int) (m : Nat) : Nat :=
  if m = 2 then (if isLeap y then 29 else 28)
  else if m = 4 ∨ m = 6 ∨ m = 9 ∨ m = 11 then 30
  else 31

/-- Days since 1970-01-01 of a civil date (standard days-from-civil
algorithm, written for truncating integer division). -/
def daysFromCivil (y : Int) (m d : Nat) : Int :=
  let y2 : Int := if m ≤ 2 then y - 1 else y
  let era : Int := (if 0 ≤ y2 then y2 else y2 - 399) / 400
  let yoe : Nat := (y2 - era * 400).toNat
  let mp : Nat := (m + 9) % 12
  let doy : Nat := (153 * mp + 2) / 5 + d - 1
  let doe : Nat := yoe * 365 + yoe / 4 - yoe / 100 + doy
  era * 146097 + (doe : Int) - 719468

/-- Civil date (year, month, day) of a count of days since 1970-01-01
(standard inverse of `daysFromCivil`). -/
def civilFromDays (z0 : Int) : Int × Nat × Nat :=
  let z : Int := z0 + 719468
  let era : Int := (if 0 ≤ z then z else z - 146096) / 146097
  let doe : Nat := (z - era * 146097).toNat
  let yoe : Nat := (doe - doe / 1460 + doe / 36524 - doe / 146096) / 365
  let y : Int := (yoe : Int) + era * 400
  let doy : Nat := doe - (365 * yoe + yoe / 4 - yoe / 100)
  let mp : Nat := (5 * doy + 2) / 153
  let d : Nat := doy - (153 * mp + 2) / 5 + 1
  let m : Nat := if mp < 10 then mp + 3 else mp - 9
  (if m ≤ 2 then y + 1 else y, m, d)

/-- Valid calendar date. -/
def validYMD (y : Int) (m d : Nat) : Bool :=
  1 ≤ m && m ≤ 12 && 1 ≤ d && d ≤ daysInMonth y m

/-- Epoch timestamp (milliseconds) of UTC midnight of a civil date. -/
def dateOnlyTs (y : Int) (m d : Nat) : Int := daysFromCivil y m d * msPerDay

/-- UTC calendar date of an epoch-millisecond timestamp. -/
def utcCalendarDate (t : Int) : Int × Nat × Nat := civilFromDays (Int.fdiv t msPerDay)

/-- Digit value of an ASCII digit. -/
def digitVal (c : Char) : Nat := c.toNat - 48

/-- Consume exactly `n` ASCII digits, returning their value and the rest. -/
def readD : Nat → Nat → List Char → Option (Nat × List Char)
  | 0, acc, cs => some (acc, cs)
  | k + 1, acc, cs =>
      match cs with
      | c :: rest => if c.isDigit then readD k (acc * 10 + digitVal c) rest else none
      | [] => none

/-- Consume one expected character. -/
def expectC (c : Char) : List Char → Option (List Char)
  | a :: rest => if a = c then some rest else none
  | [] => none

/-- Parse a non-empty all-digit character list. -/
def parseAllDigits (cs : List Char) : Option Nat :=
  if cs ≠ [] ∧ cs.all Char.isDigit then
    some (cs.foldl (fun acc c => acc * 10 + digitVal c) 0)
  else none

/-- Split a character list on the dash character. -/
def splitDash : List Char → List Char → List (List Char)
  | acc, [] => [acc.reverse]
  | acc, c :: cs => if c = '-' then acc.reverse :: splitDash [] cs else splitDash (c :: acc) cs

/-- Model of date-fns `parseISO` restricted to the shapes this
application feeds it: a strict ISO 8601 calendar date `YYYY-MM-DD`,
optionally followed by a time `THH:MM[:SS]` and an optional `Z`
designator, all validated; anything else is an invalid date.  Times
without a zone designator are normalised to UTC. -/
def parseISO (s : String) : Option Int := do
  let (y, r1) ← readD 4 0 s.data
  let r2 ← expectC '-' r1
  let (m, r3) ← readD 2 0 r2
  let r4 ← expectC '-' r3
  let (d, r5) ← readD 2 0 r4
  if validYMD (y : Int) m d then
    match r5 with
    | [] => some (dateOnlyTs (y : Int) m d)
    | 'T' :: r6 => do
        let (hh, r7) ← readD 2 0 r6
        let r8 ← expectC ':' r7
        let (mm, r9) ← readD 2 0 r8
        let (ss, r10) ← (match r9 with
          | ':' :: r => readD 2 0 r
          | r => some (0, r))
        let r11 := match r10 with
          | 'Z' :: r => r
          | r => r
        match r11 with
        | [] =>
            if hh ≤ 23 && mm ≤ 59 && ss ≤ 59 then
              some (dateOnlyTs (y : Int) m d + ((hh * 3600 + mm * 60 + ss : Nat) : Int) * 1000)
            else none
        | _ => none
    | _ => none
  else none

/-- Model of the JavaScript `new Date(string)` parser as this
application exercises it: first the ISO 8601 forms accepted by
`parseISO`, then the lenient non-padded fallback `YYYY-M-D` (one- or
two-digit month and day) accepted by the V8 date parser; everything
else is an invalid date (`NaN`). -/
def jsNewDate (s : String) : Option Int :=
  match parseISO s with
  | some t => some t
  | none =>
      match splitDash [] s.data with
      | [ys, ms, ds] => do
          let y ← parseAllDigits ys
          let m ← parseAllDigits ms
          let d ← parseAllDigits ds
          if ys.length = 4 && 1 ≤ ms.length && ms.length ≤ 2 && 1 ≤ ds.length &&
              ds.length ≤ 2 && validYMD (y : Int) m d then
            some (dateOnlyTs (y : Int) m d)
          else none
      | _ => none

/-! ## The Invoice data model (src/services/invoice.ts) -/

/-- The `Invoice` interface of `src/services/invoice.ts`: `id` is optional
(absent before the store assigns one), `amount` is a JavaScript number,
`date` a string stored as `YYYY-MM-DD`. -/
structure Invoice where
  id : Option String
  ticketNumber : String
  bookingReference : String
  agentId : String
  amount : JSNumber
  date : String
deriving DecidableEq, Repr

/-- The string rendered for `invoice.id` inside a template literal: an
absent id prints as `undefined`. -/
def idString : Option String → String
  | some s => s
  | none => "undefined"

/-! ## Sorting (invoice tables) -/

/-- The sortable columns (`SortKey = keyof Invoice`, restricted to the
five columns the tables actually render and sort). -/
inductive SortKey where
  | ticketNumber
  | bookingReference
  | agentId
  | amount
  | date
deriving DecidableEq, Repr

inductive SortDirection where
  | asc
  | desc
deriving DecidableEq, Repr

/-- The table's sort state: active key and direction. -/
structure SortState where
  key : SortKey
  dir : SortDirection
deriving DecidableEq, Repr

def toggleDir : SortDirection → SortDirection
  | .asc => .desc
  | .desc => .asc

/-- `handleSort` of the invoice tables: clicking the active key toggles
the direction; clicking a new key selects it with ascending direction. -/
def handleSort (k : SortKey) (s : SortState) : SortState :=
  if s.key = k then ⟨k, toggleDir s.dir⟩ else ⟨k, .asc⟩

/-- The string field selected by a string-valued sort key (`amount` is
numeric; the comparators never consult `strField` for it, so it maps to
the empty string). -/
def strField : SortKey → Invoice → String
  | .ticketNumber, inv => inv.ticketNumber
  | .bookingReference, inv => inv.bookingReference
  | .agentId, inv => inv.agentId
  | .date, inv => inv.date
  | .amount, _ => ""

/-- Comparator of `sortedInvoices` in `src/components/invoice-table.tsx`.
The source dispatches on `typeof`: numbers compare by `valA - valB`;
strings hit the `localeCompare` branch.  Because `date` is a string, the
later `sortKey === 'date'` fallback that would parse dates is dead code:
the `date` key is compared by `localeCompare` like any other string. -/
def cmpInvoiceTable (lc : String → String → Int) (key : SortKey) (a b : Invoice) : Int :=
  match key with
  | .amount => numCmp a.amount b.amount
  | k => lc (strField k a) (strField k b)

/-- Comparator of `sortedInvoices` in the revised table (part_007).  Here
the string branch special-cases `date` first: date strings are compared
by `new Date(v).getTime()` difference; a comparison involving an
unparseable date yields `NaN`, which the ECMAScript `SortCompare` step
treats as `+0`, i.e. as equal.  Other string keys use `localeCompare`. -/
def cmpInvoiceTable7 (lc : String → String → Int) (key : SortKey) (a b : Invoice) : Int :=
  match key with
  | .amount => numCmp a.amount b.amount
  | .date =>
      match jsNewDate a.date, jsNewDate b.date with
      | some x, some y => x - y
      | _, _ => 0
  | k => lc (strField k a) (strField k b)

/-- Comparator of `sortedInvoices` in the admin table (part_008): like
`src/components/invoice-table.tsx`, its string branch (with
`localeCompare`) precedes the `sortKey === 'date'` branch, so the `date`
key is compared as a plain string. -/
def cmpAdminTable8 (lc : String → String → Int) (key : SortKey) (a b : Invoice) : Int :=
  match key with
  | .amount => numCmp a.amount b.amount
  | k => lc (strField k a) (strField k b)

/-- Stable insertion of an element into a sorted list: the element goes
in front of the first entry it does not compare strictly after. -/
def insOrd (cmp : α → α → Int) (a : α) : List α → List α
  | [] => [a]
  | b :: t => if cmp a b ≤ 0 then a :: b :: t else b :: insOrd cmp a t

/-- Model of `Array.prototype.sort(cmp)`: a stable sort driven by the
sign of the comparator (ECMAScript requires sort stability). -/
def jsSortBy (cmp : α → α → Int) : List α → List α
  | [] => []
  | a :: t => insOrd cmp a (jsSortBy cmp t)

/-- The displayed sequence of `src/components/invoice-table.tsx`: sort
ascending by the comparator, then reverse for descending direction. -/
def sortedInvoicesTable (lc : String → String → Int) (s : SortState) (l : List Invoice) :
    List Invoice :=
  let sorted := jsSortBy (cmpInvoiceTable lc s.key) l
  match s.dir with
  | .asc => sorted
  | .desc => sorted.reverse

/-- The displayed sequence of the revised table (part_007): sort
ascending by its comparator, then reverse for descending direction. -/
def sortedInvoices7 (lc : String → String → Int) (s : SortState) (l : List Invoice) :
    List Invoice :=
  let sorted := jsSortBy (cmpInvoiceTable7 lc s.key) l
  match s.dir with
  | .asc => sorted
  | .desc => sorted.reverse

/-- Parsed date value of an invoice (`0` for an unparseable date; only
used under a parseability hypothesis). -/
def dateVal (inv : Invoice) : Int := (jsNewDate inv.date).getD 0

/-! ## Filtering -/

/-- `filteredInvoices` predicate of the admin page
(`src/app/admin/page.tsx`): the lowercased search term must be a
substring of the lowercased `ticketNumber`, `bookingReference` or
`agentId`, or of the stringified `amount` or the raw `date` string —
these last two are not lowercased in the source. -/
def adminFilterPred (filter : String) (inv : Invoice) : Bool :=
  let searchTerm := jsToLower filter
  strHasSub searchTerm (jsToLower inv.ticketNumber) ||
  strHasSub searchTerm (jsToLower inv.bookingReference) ||
  strHasSub searchTerm (jsToLower inv.agentId) ||
  strHasSub searchTerm (amountToString inv.amount) ||
  strHasSub searchTerm inv.date

/-- `filteredInvoices` of the admin page. -/
def adminFiltered (l : List Invoice) (filter : String) : List Invoice :=
  l.filter (adminFilterPred filter)

/-- The admin filter as the claim words it: a case-insensitive substring
match of the term against each of the five fields.  Stated from the
specification's words, for comparison with `adminFilterPred` above. -/
def claimAdminPred (term : String) (inv : Invoice) : Bool :=
  ciSub term inv.ticketNumber ||
  ciSub term inv.bookingReference ||
  ciSub term inv.agentId ||
  ciSub term (amountToString inv.amount) ||
  ciSub term inv.date

/-- `filteredInvoices` predicate of the agent home page (part_001):
case-insensitive substring match on `agentId` when the agent filter is a
non-empty string (JavaScript truthiness), and membership in the optional
date range.  `from`/`to` are the midnight timestamps handed over by the
date picker; the `to` bound is pushed to 23:59:59.999 of its day.  A
comparison against an unparseable invoice date is a `NaN` comparison and
is false, excluding the record when that bound is present. -/
def agentViewPred (agentFilter : String) (fromTs toTs : Option Int) (inv : Invoice) : Bool :=
  let agentMatch :=
    if agentFilter = "" then true
    else ciSub agentFilter inv.agentId
  let fromMatch :=
    match fromTs with
    | none => true
    | some f =>
        match jsNewDate inv.date with
        | some t => decide (f ≤ t)
        | none => false
  let toMatch :=
    match toTs with
    | none => true
    | some u =>
        match jsNewDate inv.date with
        | some t => decide (t ≤ u + 86399999)
        | none => false
  agentMatch && fromMatch && toMatch

/-- `filteredInvoices` of the agent home page. -/
def agentViewFiltered (agentFilter : String) (fromTs toTs : Option Int) (l : List Invoice) :
    List Invoice :=
  l.filter (agentViewPred agentFilter fromTs toTs)

/-- The agent filter as the claim words it (a `Prop`): when the agent-id
filter is set the text is a case-insensitive substring of `agentId`, and
when a bound of the date range is set the invoice's parsed date lies on
the right side of it, the upper bound inclusive through end of day. -/
def claimAgentPred (agentFilter : String) (fromTs toTs : Option Int) (inv : Invoice) : Prop :=
  (agentFilter ≠ "" → ciSub agentFilter inv.agentId = true) ∧
  (∀ f, fromTs = some f → ∃ t, jsNewDate inv.date = some t ∧ f ≤ t) ∧
  (∀ u, toTs = some u → ∃ t, jsNewDate inv.date = some t ∧ t ≤ u + 86399999)

/-! ## Error taxonomy and the two invoice services -/

/-- The distinct failures the invoice services throw, by their distinct
`Error` messages: the Firestore-configuration error, the missing-id
guard, the mock service's not-found error (carrying the offending id),
and the generic write failures of the Firestore service. -/
inductive StoreErr where
  | storeUnavailable (msg : String)
  | idRequired (msg : String)
  | notFound (id : String)
  | writeError (msg : String)
deriving DecidableEq, Repr

deriving instance DecidableEq for Except

/-- Whether a result is a not-found failure. -/
def isNotFoundErr : Except StoreErr α × List Invoice → Bool
  | (.error (.notFound _), _) => true
  | _ => false

/-- `findIndex` on a list. -/
def findIdxOpt (p : α → Bool) : List α → Option Nat
  | [] => none
  | a :: t => if p a then some 0 else (findIdxOpt p t).map (· + 1)

/-- `getInvoices` of the superseded in-memory mock service (part_009):
returns a copy of the backing array. -/
def mockGetInvoices (store : List Invoice) : List Invoice := store

/-- `updateInvoice` of the mock service (part_009): locate the invoice by
id with `findIndex`; replace it in place, or throw
`Invoice with id … not found.` when no index matches. -/
def mockUpdateInvoice (store : List Invoice) (inv : Invoice) :
    Except StoreErr (List Invoice) :=
  match findIdxOpt (fun e => e.id == inv.id) store with
  | some i => .ok (store.set i inv)
  | none => .error (.notFound (idString inv.id))

/-- `deleteInvoice` of the mock service (part_009): filter the id out of
the backing array; throw `Invoice with id … not found for deletion.`
when the length did not shrink. -/
def mockDeleteInvoice (store : List Invoice) (invoiceId : String) :
    Except StoreErr (List Invoice) :=
  let remaining := store.filter (fun e => !(e.id == some invoiceId))
  if remaining.length = store.length then .error (.notFound invoiceId)
  else .ok remaining

/-- `updateInvoice` of the Firestore service (`src/services/invoice.ts`):
check initialisation, then the id guard (`!invoice.id`, which is truthy
for both a missing and an empty id), then hand the record to the
external `updateDoc` (a parameter of the embedding); any rejection of
that call is caught and re-thrown as the generic
`Failed to update invoice.` — there is no not-found branch. -/
def updateInvoiceFS (dbInit : Bool)
    (updDoc : List Invoice → Invoice → Except String Unit × List Invoice)
    (store : List Invoice) (inv : Invoice) : Except StoreErr Unit × List Invoice :=
  if dbInit = false then
    (.error (.storeUnavailable
      "Firestore is not initialized. Please check your Firebase configuration in .env.local"),
     store)
  else if inv.id = none ∨ inv.id = some "" then
    (.error (.idRequired "Invoice ID is required for update."), store)
  else
    match updDoc store inv with
    | (.ok _, s2) => (.ok (), s2)
    | (.error _, s2) => (.error (.writeError "Failed to update invoice."), s2)

/-- `deleteInvoice` of the Firestore service (`src/services/invoice.ts`):
check initialisation, then the empty-id guard, then call the external
`deleteDoc` (a parameter); any rejection is caught and re-thrown as the
generic `Failed to delete invoice.` — the source itself notes
`Consider checking for 'not-found' errors if needed`; it does not. -/
def deleteInvoiceFS (dbInit : Bool)
    (delDoc : List Invoice → String → Except String Unit × List Invoice)
    (store : List Invoice) (invoiceId : String) : Except StoreErr Unit × List Invoice :=
  if dbInit = false then
    (.error (.storeUnavailable
      "Firestore is not initialized. Please check your Firebase configuration in .env.local"),
     store)
  else if invoiceId = "" then
    (.error (.idRequired "Invoice ID is required for deletion."), store)
  else
    match delDoc store invoiceId with
    | (.ok _, s2) => (.ok (), s2)
    | (.error _, s2) => (.error (.writeError "Failed to delete invoice."), s2)

/-- Model of the external Firestore `updateDoc` call (a black box outside
this repository): replaces the document's fields when a document with
that id exists, and rejects with a not-found error when none does. -/
def fsUpdateDoc (store : List Invoice) (inv : Invoice) : Except String Unit × List Invoice :=
  if store.any (fun e => e.id == inv.id) then
    (.ok (), store.map (fun e => if e.id == inv.id then inv else e))
  else (.error "not-found", store)

/-- Model of the external Firestore `deleteDoc` call (a black box outside
this repository): per Firestore's documented semantics it resolves
successfully whether or not the target document exists. -/
def fsDeleteDoc (store : List Invoice) (invoiceId : String) :
    Except String Unit × List Invoice :=
  (.ok (), store.filter (fun e => !(e.id == some invoiceId)))

/-! ## Admin-page cache handlers and the React-Query variant -/

/-- The success path of `handleDeleteConfirm` in `src/app/admin/page.tsx`:
the cached collection is patched locally by filtering the deleted id out
of the previous array. -/
def deleteSuccessLegacy (cache : List Invoice) (invoiceId : String) : List Invoice :=
  cache.filter (fun e => !(e.id == some invoiceId))

/-- The success path of `handleUpdate` in `src/app/admin/page.tsx`: the
cached collection is patched locally by mapping the updated record over
entries with the matching id. -/
def updateSuccessLegacy (cache : List Invoice) (inv : Invoice) : List Invoice :=
  cache.map (fun e => if e.id == inv.id then inv else e)

/-- The success path of `handleAddInvoice` in the local-state home page
(part_001): the saved record is appended to the cached array. -/
def addSuccessLegacy (cache : List Invoice) (saved : Invoice) : List Invoice :=
  cache ++ [saved]

/-- `handleUpdate` of `src/app/admin/page.tsx` as a cache transition,
parameterised by the outcome of the service call: records without an id
are refused up front; on success the cache is patched locally; on error
it is left untouched (only a toast is shown). -/
def handleUpdateLegacy (cache : List Invoice) (inv : Invoice)
    (res : Except StoreErr Unit) : List Invoice :=
  if inv.id = none ∨ inv.id = some "" then cache
  else
    match res with
    | .ok _ => updateSuccessLegacy cache inv
    | .error _ => cache

/-- The `onSuccess` cache effect of the React-Query page variants
(part_001's second `Home`, part_002's `AdminPageContent`): the query is
invalidated and the whole collection re-fetched, so the new cache is the
store's current contents, independent of the previous cache. -/
def rqMutationSuccessCache (_oldCache store : List Invoice) : List Invoice :=
  mockGetInvoices store

/-! ## The Field Reconciler's date handling (invoice-form.tsx) -/

/-- The date form field after reconciliation: a parsed timestamp or the
explicit unset marker (`form.setValue('date', undefined)`). -/
inductive DateField where
  | set (t : Int)
  | unset
deriving DecidableEq, Repr

/-- The UTC calendar date a set date field denotes. -/
def DateField.calendar : DateField → Option (Int × Nat × Nat)
  | .set t => some (utcCalendarDate t)
  | .unset => none

/-- The non-fatal warning emitted when a raw extracted date cannot be
parsed; it names the original raw string
(`console.warn("AI returned an invalid or unparseable date format:", raw)`
plus the `Date Warning` toast). -/
inductive ReconcileWarning where
  | dateParseWarning (raw : String)
deriving DecidableEq, Repr

/-- The date-reconciliation step of `handleSmartExtraction` in
`src/components/invoice-form.tsx`: try the strict ISO parse
(`parseISO`), then the lenient `new Date(...)` constructor; if both fail
the field is set to unset and exactly one warning naming the raw string
is emitted. -/
def reconcileDate (raw : String) : DateField × List ReconcileWarning :=
  match parseISO raw with
  | some t => (.set t, [])
  | none =>
      match jsNewDate raw with
      | some t => (.set t, [])
      | none => (.unset, [.dateParseWarning raw])

/-! ## Sample records (the mock data of part_009 / part_002, plus
variations used in concrete checks) -/

/-- First sample invoice of the mock store. -/
def inv1 : Invoice := ⟨some "1", "T123", "B456", "A001", ⟨15075, 2⟩, "2024-07-01"⟩

/-- Second sample invoice of the mock store. -/
def inv2 : Invoice := ⟨some "2", "T124", "B457", "A002", ⟨23000, 2⟩, "2024-07-05"⟩

/-- Third sample invoice of the mock store. -/
def inv3 : Invoice := ⟨some "3", "T125", "B458", "A001", ⟨9999, 2⟩, "2024-07-10"⟩

/-- An invoice whose id is absent from the sample store. -/
def invMiss : Invoice := ⟨some "7", "T900", "B900", "A900", ⟨100, 0⟩, "2024-07-02"⟩

/-- An invoice carrying a non-padded date string, the format on which a
string sort and a parsed-date sort disagree. -/
def invNonPadded : Invoice := ⟨some "9", "T901", "B901", "A901", ⟨200, 0⟩, "2024-7-2"⟩

/-- An invoice whose raw date string contains letters, on which
case-sensitive and case-insensitive matching disagree. -/
def invJul : Invoice := ⟨some "8", "T123", "B456", "A001", ⟨15075, 2⟩, "2024-JUL-01"⟩

/-- An invoice sharing its date with `inv1` but nothing else: a sort-key
tie. -/
def invTie : Invoice := ⟨some "4", "T200", "B200", "A200", ⟨4200, 2⟩, "2024-07-01"⟩

/-! ## Helper lemmas -/

theorem hasSub_nil_needle : ∀ h : List Char, hasSub [] h = true
  | [] => rfl
  | _ :: t => by simp [hasSub, listPre]

theorem mem_insOrd (cmp : α → α → Int) (a x : α) (l : List α) :
    x ∈ insOrd cmp a l ↔ x = a ∨ x ∈ l := by
  induction l with
  | nil => simp [insOrd]
  | cons b t ih =>
    by_cases h : cmp a b ≤ 0
    · simp only [insOrd, if_pos h, List.mem_cons]
    · simp only [insOrd, if_neg h, List.mem_cons, ih]
      tauto

theorem mem_jsSortBy (cmp : α → α → Int) (x : α) (l : List α) :
    x ∈ jsSortBy cmp l ↔ x ∈ l := by
  induction l with
  | nil => exact Iff.rfl
  | cons a t ih => simp [jsSortBy, mem_insOrd, ih, List.mem_cons]

theorem pairwise_insOrd (cmp : α → α → Int) (a : α) (l : List α)
    (htot : ∀ b ∈ l, cmp a b ≤ 0 ∨ cmp b a ≤ 0)
    (htr : ∀ b ∈ l, ∀ c ∈ l, cmp a b ≤ 0 → cmp b c ≤ 0 → cmp a c ≤ 0)
    (hs : l.Pairwise (fun x y => cmp x y ≤ 0)) :
    (insOrd cmp a l).Pairwise (fun x y => cmp x y ≤ 0) := by
  induction l with
  | nil => simp [insOrd]
  | cons b t ih =>
    rcases List.pairwise_cons.mp hs with ⟨hb, ht⟩
    by_cases hab : cmp a b ≤ 0
    · rw [insOrd, if_pos hab]
      refine List.pairwise_cons.mpr ⟨?_, List.pairwise_cons.mpr ⟨hb, ht⟩⟩
      intro x hx
      rcases List.mem_cons.mp hx with rfl | hx
      · exact hab
      · exact htr b (List.mem_cons_self b t) x (List.mem_cons_of_mem _ hx) hab (hb x hx)
    · rw [insOrd, if_neg hab]
      refine List.pairwise_cons.mpr ⟨?_, ?_⟩
      · intro x hx
        rcases (mem_insOrd cmp a x t).mp hx with rfl | hx
        · rcases htot b (List.mem_cons_self b t) with h | h
          · exact absurd h hab
          · exact h
        · exact hb x hx
      · exact ih (fun c hc => htot c (List.mem_cons_of_mem _ hc))
          (fun c hc d hd => htr c (List.mem_cons_of_mem _ hc) d (List.mem_cons_of_mem _ hd)) ht

theorem pairwise_jsSortBy (cmp : α → α → Int) (l : List α)
    (htot : ∀ a ∈ l, ∀ b ∈ l, cmp a b ≤ 0 ∨ cmp b a ≤ 0)
    (htr : ∀ a ∈ l, ∀ b ∈ l, ∀ c ∈ l, cmp a b ≤ 0 → cmp b c ≤ 0 → cmp a c ≤ 0) :
    (jsSortBy cmp l).Pairwise (fun x y => cmp x y ≤ 0) := by
  induction l with
  | nil => exact List.Pairwise.nil
  | cons a t ih =>
    have hmem : ∀ x ∈ jsSortBy cmp t, x ∈ a :: t := fun x hx =>
      List.mem_cons_of_mem _ ((mem_jsSortBy cmp x t).mp hx)
    exact pairwise_insOrd cmp a (jsSortBy cmp t)
      (fun b hb => htot a (List.mem_cons_self a t) b (hmem b hb))
      (fun b hb c hc => htr a (List.mem_cons_self a t) b (hmem b hb) c (hmem c hc))
      (ih (fun x hx y hy => htot x (List.mem_cons_of_mem _ hx) y (List.mem_cons_of_mem _ hy))
          (fun x hx y hy z hz => htr x (List.mem_cons_of_mem _ hx) y
            (List.mem_cons_of_mem _ hy) z (List.mem_cons_of_mem _ hz)))

theorem map_eq_self {f : α → α} {l : List α} (h : ∀ a ∈ l, f a = a) : l.map f = l := by
  induction l with
  | nil => rfl
  | cons a t ih =>
    rw [List.map_cons, h a (List.mem_cons_self a t),
      ih fun b hb => h b (List.mem_cons_of_mem _ hb)]

theorem findIdxOpt_eq_none {p : α → Bool} {l : List α} (h : ∀ a ∈ l, p a = false) :
    findIdxOpt p l = none := by
  induction l with
  | nil => rfl
  | cons a t ih =>
    simp [findIdxOpt, h a (List.mem_cons_self a t),
      ih fun b hb => h b (List.mem_cons_of_mem _ hb)]

theorem set_findIdx_map (store : List Invoice) (inv : Invoice) (i : Nat)
    (hnd : (store.map Invoice.id).Nodup)
    (hfind : findIdxOpt (fun e => e.id == inv.id) store = some i) :
    store.set i inv = store.map (fun e => if e.id == inv.id then inv else e) := by
  induction store generalizing i with
  | nil => simp [findIdxOpt] at hfind
  | cons a t ih =>
    rw [findIdxOpt] at hfind
    by_cases ha : (a.id == inv.id) = true
    · rw [if_pos ha] at hfind
      obtain rfl : (0 : Nat) = i := by simpa using hfind
      have haid : a.id = inv.id := beq_iff_eq.mp ha
      have hnotin : a.id ∉ t.map Invoice.id :=
        (List.nodup_cons.mp (by simpa using hnd)).1
      have htail : t.map (fun e => if e.id == inv.id then inv else e) = t :=
        map_eq_self fun e he => by
          have hne : e.id ≠ inv.id := fun hc =>
            hnotin (haid ▸ hc ▸ List.mem_map_of_mem Invoice.id he)
          simp [beq_eq_false_iff_ne.mpr hne]
      have hmap : (a :: t).map (fun e => if e.id == inv.id then inv else e) = inv :: t := by
        rw [List.map_cons, if_pos ha, htail]
      rw [hmap]
      rfl
    · rw [if_neg ha] at hfind
      match hft : findIdxOpt (fun e => e.id == inv.id) t with
      | none => rw [hft] at hfind; simp at hfind
      | some j =>
          rw [hft] at hfind
          obtain rfl : j + 1 = i := by simpa using hfind
          have hndt : (t.map Invoice.id).Nodup :=
            (List.nodup_cons.mp (by simpa using hnd)).2
          have hmap : (a :: t).map (fun e => if e.id == inv.id then inv else e) =
              a :: t.map (fun e => if e.id == inv.id then inv else e) := by
            rw [List.map_cons, if_neg ha]
          rw [hmap, ← ih j hndt hft]
          rfl

/-! ## Claim theorems -/

/-- Claim C10: the admin-view filter with an empty query term is the
identity — the empty string is a substring of every field, so an empty
search box displays the full collection. -/
theorem C10_empty_admin_filter (l : List Invoice) : adminFiltered l "" = l := by
  apply List.filter_eq_self.mpr
  intro inv _
  have h1 : (jsToLower "").data = [] := rfl
  simp [adminFilterPred, strHasSub, h1, hasSub_nil_needle]

/-- Claim C9: calling the Firestore service's update with an invoice
whose id is absent (or empty, the JavaScript falsy check), or its delete
with an empty id, fails with the `Invoice ID is required` error before
any store operation is attempted — the outcome is the same for every
behaviour of the external document calls and the store is untouched. -/
theorem C9_id_required :
    (∀ (updDoc : List Invoice → Invoice → Except String Unit × List Invoice)
        (store : List Invoice) (inv : Invoice), inv.id = none ∨ inv.id = some "" →
        updateInvoiceFS true updDoc store inv =
          (.error (.idRequired "Invoice ID is required for update."), store)) ∧
    (∀ (delDoc : List Invoice → String → Except String Unit × List Invoice)
        (store : List Invoice),
        deleteInvoiceFS true delDoc store "" =
          (.error (.idRequired "Invoice ID is required for deletion."), store)) ∧
    updateInvoiceFS true fsUpdateDoc [inv1] ⟨none, "T9", "B9", "A9", ⟨1, 0⟩, "2024-07-02"⟩ =
      (.error (.idRequired "Invoice ID is required for update."), [inv1]) := by
  refine ⟨?_, ?_, by decide⟩
  · intro updDoc store inv h
    rw [updateInvoiceFS, if_neg (by simp), if_pos h]
  · intro delDoc store
    rw [deleteInvoiceFS, if_neg (by simp), if_pos rfl]

/-- Claim C4: the reconciler's date handling first attempts the strict
ISO 8601 parse, then the lenient general-purpose parse; if both fail it
sets the date field to unset and emits exactly one non-fatal warning
naming the raw string.  Raw input `not a date` yields an unset field and
one warning; raw input `2024-07-01T10:00:00Z` yields the calendar date
2024-07-01 and no warning. -/
theorem C4_reconcile_date :
    (∀ raw t, parseISO raw = some t → reconcileDate raw = (.set t, [])) ∧
    (∀ raw t, parseISO raw = none → jsNewDate raw = some t →
        reconcileDate raw = (.set t, [])) ∧
    (∀ raw, parseISO raw = none → jsNewDate raw = none →
        reconcileDate raw = (.unset, [.dateParseWarning raw])) ∧
    reconcileDate "not a date" = (.unset, [.dateParseWarning "not a date"]) ∧
    (reconcileDate "2024-07-01T10:00:00Z").1.calendar = some (2024, 7, 1) ∧
    (reconcileDate "2024-07-01T10:00:00Z").2 = [] := by
  refine ⟨?_, ?_, ?_, by decide, by decide, by decide⟩
  · intro raw t h
    rw [reconcileDate, h]
  · intro raw t h1 h2
    rw [reconcileDate, h1, h2]
  · intro raw h1 h2
    rw [reconcileDate, h1, h2]

/-- Claim C8: selecting the already-active sort key toggles the
direction, and the displayed sequence under the toggled direction is the
exact reversal of the previous one (so equal-key ties appear in reversed
relative order, not independently re-sorted); selecting a different key
resets the direction to ascending.  The concrete conjuncts show a tie
kept in original order ascending and exactly reversed descending. -/
theorem C8_sort_toggle :
    (∀ (k : SortKey) (s : SortState), s.key = k →
        handleSort k s = ⟨k, toggleDir s.dir⟩) ∧
    (∀ (lc : String → String → Int) (k : SortKey) (d : SortDirection) (l : List Invoice),
        sortedInvoices7 lc ⟨k, toggleDir d⟩ l = (sortedInvoices7 lc ⟨k, d⟩ l).reverse ∧
        sortedInvoicesTable lc ⟨k, toggleDir d⟩ l = (sortedInvoicesTable lc ⟨k, d⟩ l).reverse) ∧
    (∀ (k : SortKey) (s : SortState), s.key ≠ k → handleSort k s = ⟨k, .asc⟩) ∧
    (sortedInvoices7 strCmp ⟨.date, .asc⟩ [inv1, invTie] = [inv1, invTie] ∧
     sortedInvoices7 strCmp ⟨.date, .desc⟩ [inv1, invTie] = [invTie, inv1]) := by
  refine ⟨?_, ?_, ?_, by decide⟩
  · intro k s h
    rw [handleSort, if_pos h]
  · intro lc k d l
    cases d <;>
      simp [sortedInvoices7, sortedInvoicesTable, toggleDir, List.reverse_reverse]
  · intro k s h
    rw [handleSort, if_neg h]

/-- Claim C1 counterexample: a successful deletion through the
local-state admin page does not leave the cache equal to a re-fetch.
With store `[inv1, inv2]` and a stale cache `[inv1]`, deleting id `1`
succeeds in the store (leaving `[inv2]`), yet `handleDeleteConfirm`
locally filters the cache to `[]`, which is not the re-fetched
collection. -/
theorem C1_counterexample :
    mockDeleteInvoice [inv1, inv2] "1" = .ok [inv2] ∧
    deleteSuccessLegacy [inv1] "1" = [] ∧
    ([] : List Invoice) ≠ mockGetInvoices [inv2] := by decide

/-- Claim C1 amended: the React-Query page variants replace the
collection wholesale by re-fetching on success (the new cache is the
store's contents, independent of the old cache), but the local-state
admin page patches the cached array locally — by filtering on delete and
mapping on update.  The local patch coincides with a re-fetch exactly
when the cache was in sync with the store before the mutation (shown
below for delete, and for update under unique ids); on a stale cache
they diverge. -/
theorem C1_cache_refresh_amended :
    (∀ oldCache store : List Invoice,
        rqMutationSuccessCache oldCache store = mockGetInvoices store) ∧
    (∀ (store store2 : List Invoice) (invoiceId : String),
        mockDeleteInvoice store invoiceId = .ok store2 →
        deleteSuccessLegacy store invoiceId = store2) ∧
    (∀ (store store2 : List Invoice) (inv : Invoice),
        (store.map Invoice.id).Nodup →
        mockUpdateInvoice store inv = .ok store2 →
        updateSuccessLegacy store inv = store2) ∧
    deleteSuccessLegacy [inv1] "1" ≠ mockGetInvoices [inv2] := by
  refine ⟨fun _ _ => rfl, ?_, ?_, by decide⟩
  · intro store store2 invoiceId h
    rw [mockDeleteInvoice] at h
    split at h
    · exact absurd h (by simp)
    · injection h with h2
  · intro store store2 inv hnd h
    rw [mockUpdateInvoice] at h
    split at h
    next i hfind =>
      injection h with h2
      rw [updateSuccessLegacy, ← set_findIdx_map store inv i hnd hfind, h2]
    next => exact absurd h (by simp)

/-- Claim C3 counterexample: in the Firestore service, deleting an id
that is not in the store does not fail with a not-found error — the call
is forwarded to the external idempotent `deleteDoc` and resolves
successfully (the claim requires it to fail loudly with `NotFound`). -/
theorem C3_counterexample :
    deleteInvoiceFS true fsDeleteDoc [inv1] "missing" = (.ok (), [inv1]) ∧
    isNotFoundErr (deleteInvoiceFS true fsDeleteDoc [inv1] "missing") = false := by decide

/-- Claim C3 amended: deleting a non-existent id fails with a not-found
error naming the id in the mock invoice service; the Firestore service
has no not-found branch at all — whatever the external `deleteDoc` does,
its result is never a `NotFound` failure (with Firestore's documented
idempotent delete it resolves successfully; a backend rejection surfaces
as the generic delete write error). -/
theorem C3_delete_not_found_amended :
    (∀ (store : List Invoice) (invoiceId : String),
        (∀ e ∈ store, e.id ≠ some invoiceId) →
        mockDeleteInvoice store invoiceId = .error (.notFound invoiceId)) ∧
    (∀ (dbInit : Bool) (delDoc : List Invoice → String → Except String Unit × List Invoice)
        (store : List Invoice) (invoiceId : String),
        isNotFoundErr (deleteInvoiceFS dbInit delDoc store invoiceId) = false) ∧
    mockDeleteInvoice [inv1, inv2] "zzz" = .error (.notFound "zzz") := by
  refine ⟨?_, ?_, by decide⟩
  · intro store invoiceId h
    have hfix : store.filter (fun e => !(e.id == some invoiceId)) = store :=
      List.filter_eq_self.mpr fun a ha => by
        simp [beq_eq_false_iff_ne.mpr (h a ha)]
    simp [mockDeleteInvoice, hfix]
  · intro dbInit delDoc store invoiceId
    rw [deleteInvoiceFS]
    by_cases h1 : dbInit = false
    · rw [if_pos h1]; rfl
    · rw [if_neg h1]
      by_cases h2 : invoiceId = ""
      · rw [if_pos h2]; rfl
      · rw [if_neg h2]
        rcases h : delDoc store invoiceId with ⟨r, s2⟩
        cases r <;> rfl

/-- Claim C5 counterexample: in the Firestore service, updating an
invoice whose id is absent from the store fails with the generic
`Failed to update invoice.` write error, not with a not-found error —
the backend's not-found rejection is caught and its distinction lost. -/
theorem C5_counterexample :
    updateInvoiceFS true fsUpdateDoc [inv1] invMiss =
      (.error (.writeError "Failed to update invoice."), [inv1]) ∧
    isNotFoundErr (updateInvoiceFS true fsUpdateDoc [inv1] invMiss) = false := by decide

/-- Claim C5 amended: updating a non-existent id fails — with a
not-found error naming the id in the mock service, while the Firestore
service surfaces any backend rejection as the generic update write error
and never produces a `NotFound` failure — and the page's cached
collection is exactly the same after the failed call as before it (the
local success patch is applied only after the store confirms). -/
theorem C5_update_not_found_amended :
    (∀ (store : List Invoice) (inv : Invoice) (s : String), inv.id = some s →
        (∀ e ∈ store, e.id ≠ inv.id) →
        mockUpdateInvoice store inv = .error (.notFound s)) ∧
    (∀ (dbInit : Bool) (updDoc : List Invoice → Invoice → Except String Unit × List Invoice)
        (store : List Invoice) (inv : Invoice),
        isNotFoundErr (updateInvoiceFS dbInit updDoc store inv) = false) ∧
    (∀ (cache : List Invoice) (inv : Invoice) (e : StoreErr),
        handleUpdateLegacy cache inv (.error e) = cache) ∧
    mockUpdateInvoice [inv1, inv2] invMiss = .error (.notFound "7") ∧
    handleUpdateLegacy [inv1, inv2] invMiss (.error (.notFound "7")) = [inv1, inv2] := by
  refine ⟨?_, ?_, ?_, by decide, by decide⟩
  · intro store inv s hs h
    have hnone : findIdxOpt (fun e => e.id == inv.id) store = none :=
      findIdxOpt_eq_none fun a ha => beq_eq_false_iff_ne.mpr (h a ha)
    rw [mockUpdateInvoice, hnone, hs]
    rfl
  · intro dbInit updDoc store inv
    rw [updateInvoiceFS]
    by_cases h1 : dbInit = false
    · rw [if_pos h1]; rfl
    · rw [if_neg h1]
      by_cases h2 : inv.id = none ∨ inv.id = some ""
      · rw [if_pos h2]; rfl
      · rw [if_neg h2]
        rcases h : updDoc store inv with ⟨r, s2⟩
        cases r <;> rfl
  · intro cache inv e
    rw [handleUpdateLegacy]
    by_cases h : inv.id = none ∨ inv.id = some ""
    · rw [if_pos h]
    · rw [if_neg h]

/-- Claim C6 counterexample: the term `JUL` is a case-insensitive
substring of the raw date string `2024-JUL-01` of `invJul`, so the claim
retains the record — but the admin filter drops it, because the source
matches the lowercased term against the raw (non-lowercased) date
string. -/
theorem C6_counterexample :
    claimAdminPred "JUL" invJul = true ∧ adminFilterPred "JUL" invJul = false ∧
    ("JUL" : String) ≠ "" := by decide

/-- Claim C6 amended: the admin filter retains an invoice iff the term
is a case-insensitive substring of `ticketNumber`, `bookingReference` or
`agentId`, or the lowercased term occurs verbatim in the stringified
`amount` or in the raw `date` string (these two are matched
case-sensitively against the lowercased term).  The term `150.75` still
matches `inv1` through its amount alone. -/
theorem C6_admin_filter_amended :
    (∀ (l : List Invoice) (term : String) (inv : Invoice),
        inv ∈ adminFiltered l term ↔ inv ∈ l ∧
          (ciSub term inv.ticketNumber = true ∨ ciSub term inv.bookingReference = true ∨
           ciSub term inv.agentId = true ∨
           strHasSub (jsToLower term) (amountToString inv.amount) = true ∨
           strHasSub (jsToLower term) inv.date = true)) ∧
    adminFiltered [inv1] "150.75" = [inv1] ∧
    strHasSub (jsToLower "150.75") (jsToLower inv1.ticketNumber) = false ∧
    strHasSub (jsToLower "150.75") (jsToLower inv1.bookingReference) = false ∧
    strHasSub (jsToLower "150.75") (jsToLower inv1.agentId) = false ∧
    strHasSub (jsToLower "150.75") inv1.date = false ∧
    strHasSub (jsToLower "150.75") (amountToString inv1.amount) = true := by
  refine ⟨?_, by decide, by decide, by decide, by decide, by decide, by decide⟩
  intro l term inv
  simp [adminFiltered, List.mem_filter, adminFilterPred, ciSub, Bool.or_eq_true, or_assoc]

/-- Claim C7: the agent-view filter retains an invoice iff the agent-id
text, when set, is a case-insensitive substring of `agentId`, and the
invoice's date lies inclusively between the bounds of the date range
that are set, the upper bound inclusive through end of day; an absent
filter matches every invoice.  With from = 2024-07-02 and
to = 2024-07-10, the record dated 2024-07-01 is excluded and the one
dated 2024-07-10 is included. -/
theorem C7_agent_filter :
    (∀ (af : String) (ft tt : Option Int) (l : List Invoice) (inv : Invoice),
        inv ∈ agentViewFiltered af ft tt l ↔ inv ∈ l ∧ claimAgentPred af ft tt inv) ∧
    agentViewFiltered "" (some (dateOnlyTs 2024 7 2)) (some (dateOnlyTs 2024 7 10))
        [inv1, inv3] = [inv3] ∧
    agentViewPred "a001" none none inv1 = true ∧
    (∀ l : List Invoice, agentViewFiltered "" none none l = l) := by
  refine ⟨?_, by decide, by decide, fun l => List.filter_eq_self.mpr fun inv _ => rfl⟩
  intro af ft tt l inv
  rw [agentViewFiltered, List.mem_filter]
  refine and_congr_right fun _ => ?_
  unfold agentViewPred claimAgentPred
  by_cases haf : af = "" <;>
    cases ft <;> cases tt <;> cases hjd : jsNewDate inv.date <;>
      simp [haf, hjd, and_assoc]

/-- Claim C2 counterexample: under the comparator of
`src/components/invoice-table.tsx` (instantiating `localeCompare` with
code-point comparison, which it equals on these strings), an ascending
sort by the `date` key displays the invoice dated 2024-07-10 before the
one dated 2024-7-2, although its parsed calendar date is the later one —
the date key is ordered by string comparison, not by parsed value. -/
theorem C2_counterexample :
    sortedInvoicesTable strCmp ⟨.date, .asc⟩ [invNonPadded, inv3] = [inv3, invNonPadded] ∧
    jsNewDate invNonPadded.date = some 1719878400000 ∧
    jsNewDate inv3.date = some 1720569600000 ∧
    (1719878400000 : Int) < 1720569600000 := by decide

/-- Claim C2 amended: in the revised table (part_007) the `date` key is
ordered by the parsed timestamps — independent of the locale comparison
— with unparseable dates comparing as equal, and an ascending date sort
of parseable dates is chronological; but in
`src/components/invoice-table.tsx` and the admin table (part_008) the
string branch precedes the date branch, so the `date` key is ordered by
the locale comparison of the raw strings.  The other string keys use the
locale comparison in all three tables. -/
theorem C2_sort_keys_amended :
    (∀ (lc : String → String → Int) (a b : Invoice) (x y : Int),
        jsNewDate a.date = some x → jsNewDate b.date = some y →
        cmpInvoiceTable7 lc .date a b = x - y) ∧
    (∀ (lc : String → String → Int) (a b : Invoice),
        jsNewDate a.date = none ∨ jsNewDate b.date = none →
        cmpInvoiceTable7 lc .date a b = 0) ∧
    (∀ (lc : String → String → Int) (a b : Invoice),
        cmpInvoiceTable lc .date a b = lc a.date b.date ∧
        cmpAdminTable8 lc .date a b = lc a.date b.date) ∧
    (∀ (lc : String → String → Int) (k : SortKey) (a b : Invoice),
        k ≠ .date → k ≠ .amount →
        cmpInvoiceTable7 lc k a b = lc (strField k a) (strField k b) ∧
        cmpInvoiceTable lc k a b = lc (strField k a) (strField k b) ∧
        cmpAdminTable8 lc k a b = lc (strField k a) (strField k b)) ∧
    (∀ (lc : String → String → Int) (l : List Invoice),
        (∀ inv ∈ l, (jsNewDate inv.date).isSome = true) →
        (sortedInvoices7 lc ⟨.date, .asc⟩ l).Pairwise fun a b => dateVal a ≤ dateVal b) ∧
    (sortedInvoices7 strCmp ⟨.date, .asc⟩ [inv3, inv1, inv2]).map Invoice.date =
      ["2024-07-01", "2024-07-05", "2024-07-10"] := by
  refine ⟨?_, ?_, fun lc a b => ⟨rfl, rfl⟩, ?_, ?_, by decide⟩
  · intro lc a b x y hx hy
    simp [cmpInvoiceTable7, hx, hy]
  · intro lc a b h
    rcases h with h | h
    · cases hb : jsNewDate b.date <;> simp [cmpInvoiceTable7, h, hb]
    · cases ha : jsNewDate a.date <;> simp [cmpInvoiceTable7, h, ha]
  · intro lc k a b h1 h2
    cases k with
    | date => exact absurd rfl h1
    | amount => exact absurd rfl h2
    | ticketNumber => exact ⟨rfl, rfl, rfl⟩
    | bookingReference => exact ⟨rfl, rfl, rfl⟩
    | agentId => exact ⟨rfl, rfl, rfl⟩
  · intro lc l hl
    have key : ∀ inv ∈ l, ∃ x, jsNewDate inv.date = some x := fun inv h =>
      Option.isSome_iff_exists.mp (hl inv h)
    have hcmp : ∀ a ∈ l, ∀ b ∈ l,
        cmpInvoiceTable7 lc .date a b = dateVal a - dateVal b := by
      intro a ha b hb
      obtain ⟨x, hx⟩ := key a ha
      obtain ⟨y, hy⟩ := key b hb
      simp [cmpInvoiceTable7, hx, hy, dateVal]
    have hp := pairwise_jsSortBy (cmpInvoiceTable7 lc .date) l
      (fun a ha b hb => by rw [hcmp a ha b hb, hcmp b hb a ha]; omega)
      (fun a ha b hb c hc hab hbc => by
        rw [hcmp a ha b hb] at hab
        rw [hcmp b hb c hc] at hbc
        rw [hcmp a ha c hc]
        omega)
    have hout : ∀ x ∈ jsSortBy (cmpInvoiceTable7 lc .date) l, x ∈ l := fun x hx =>
      (mem_jsSortBy _ x l).mp hx
    refine List.Pairwise.imp_of_mem ?_ hp
    intro a b ha hb hle
    rw [hcmp a (hout a ha) b (hout b hb)] at hle
    omega

end InvoicePilot
